import Mathlib

/-! lib_tar: a read-only accessor for ustar archives

A shallow embedding of `Projet 2/Linfo1252/lib_tar.c`.

* An archive (the file behind `tar_fd`) is a `List Nat` of bytes, each in `0..255`.
* A buffer (`header`, `dest`) is a `List Nat` too; `pread` overwrites a leading part of it.
  The buffer `dest` has the size that `*len` states on entry: the bytes that a `pread`
  writes after its end are kept apart, as an overrun.
* C integers are `Int`s, narrowed with `toInt32` / `toSize` where the source stores
  them in an `int` or a `size_t`.
* Every `while (true)` loop and every recursive call takes a `fuel : Nat`; the result is
  `none` when the fuel runs out before the C function returns.
* `malloc` returns a block whose content is not determined: it is the parameter `mem`.
-/

set_option autoImplicit false

namespace LibTar

/-! ## Machine integers -/

/-- Conversion of an integer to a 32-bit `int` (two's complement). -/
def toInt32 (x : Int) : Int := (x + 2147483648) % 4294967296 - 2147483648

/-- Conversion of an integer to a 64-bit `size_t`. -/
def toSize (x : Int) : Int := x % 18446744073709551616

/-- The value of a byte read through a `char *` (`char` is signed). -/
def toChar (b : Nat) : Int := if b % 256 < 128 then (b % 256 : Nat) else ((b % 256 : Nat) : Int) - 256

/-! ## Constants and macros of `lib_tar.h` -/

/-- Modelled from the spec: `SizeOfHeader` of `lib_tar.h`, which is not among the sources;
the fixed size of a block, 512 bytes. -/
def SizeOfHeader : Int := 512

/-- Modelled from the spec: `TMAGIC` of `lib_tar.h`; the bytes of `"ustar"` and its null. -/
def TMAGIC : List Nat := [117, 115, 116, 97, 114, 0]

/-- Modelled from the spec: `TMAGLEN` of `lib_tar.h`; the magic field has 6 bytes. -/
def TMAGLEN : Nat := 6

/-- Modelled from the spec: `TVERSION` of `lib_tar.h`; the bytes of `"00"` and the null
that ends the string literal. -/
def TVERSION : List Nat := [48, 48, 0]

/-- Modelled from the spec: `TVERSLEN` of `lib_tar.h`; the version field has 2 bytes. -/
def TVERSLEN : Nat := 2

/-- Modelled from the spec: typeflag values of `lib_tar.h`; `'0'` is a regular file. -/
def REGTYPE : Nat := 48

/-- Modelled from the spec: typeflag values of `lib_tar.h`; a null is a regular file. -/
def AREGTYPE : Nat := 0

/-- Modelled from the spec: typeflag values of `lib_tar.h`; `'1'` is a hard link. -/
def LNKTYPE : Nat := 49

/-- Modelled from the spec: typeflag values of `lib_tar.h`; `'2'` is a symbolic link. -/
def SYMTYPE : Nat := 50

/-- Modelled from the spec: typeflag values of `lib_tar.h`; `'5'` is a directory. -/
def DIRTYPE : Nat := 53

/-- White space as `strtol` skips it: space, and the controls 9 to 13. -/
def isSpace (b : Nat) : Bool := b == 32 || (9 ≤ b && b ≤ 13)

/-- An octal digit, `'0'` to `'7'`. -/
def isOctal (b : Nat) : Bool := 48 ≤ b && b ≤ 55

/-- The digits of `strtol`: accumulates octal digits until the first other byte. -/
def octalDigits : List Nat → Nat → Nat
  | [], acc => acc
  | b :: bs, acc => if isOctal b then octalDigits bs (acc * 8 + (b - 48)) else acc

/-- The sign and digits of `strtol`, after the white space; the result is clamped to
the range of a `long`. -/
def strtolSigned (s : List Nat) : Int :=
  match s with
  | 45 :: bs => max (-(octalDigits bs 0 : Int)) (-9223372036854775808)
  | 43 :: bs => min (octalDigits bs 0 : Int) 9223372036854775807
  | _ => min (octalDigits s 0 : Int) 9223372036854775807

/-- Modelled from the spec: `TAR_INT` of `lib_tar.h`; the value of a field interpreted as
an octal ASCII integer, read as C's `strtol(p, NULL, 8)` reads the bytes from `p` on. -/
def TAR_INT (s : List Nat) : Int := strtolSigned (s.dropWhile isSpace)

/-! ## The C library -/

/-- The call `pread(tar_fd, buf, count, offset)`: the content of `buf` afterwards. A negative
offset is an error, and a read that reaches the end of the file is short; the bytes of
`buf` that are not overwritten stay. -/
def pread (tar buf : List Nat) (count : Nat) (offset : Int) : List Nat :=
  if offset < 0 then buf
  else
    let got := (tar.drop offset.toNat).take count
    got ++ buf.drop got.length

/-- The C string that starts at a pointer: the bytes before the first null. -/
def cstr (s : List Nat) : List Nat := s.takeWhile (· != 0)

/-- The test `strcmp(a, b) == 0`. -/
def strcmp_eq (a b : List Nat) : Bool := cstr a == cstr b

/-- The test `strncmp(a, b, n) == 0`: the first `n` bytes are compared, up to the
first null. -/
def strncmp_eq : List Nat → List Nat → Nat → Bool
  | _, _, 0 => true
  | [], [], _ => true
  | [], b :: _, _ => b == 0
  | a :: _, [], _ => a == 0
  | a :: as, b :: bs, n + 1 => if a != b then false else if a == 0 then true else strncmp_eq as bs n

/-! ## The fields of `tar_header_t` -/

/-- The field `name`, at byte 0. -/
def name (header : List Nat) : List Nat := header

/-- The field `size`, at byte 124. -/
def size (header : List Nat) : List Nat := header.drop 124

/-- The field `chksum`, at byte 148. -/
def chksum (header : List Nat) : List Nat := header.drop 148

/-- The field `typeflag`, at byte 156. -/
def typeflag (header : List Nat) : Nat := header.getD 156 0

/-- The field `linkname`, at byte 157. -/
def linkname (header : List Nat) : List Nat := header.drop 157

/-- The field `magic`, at byte 257. -/
def magic (header : List Nat) : List Nat := header.drop 257

/-- The field `version`, at byte 263. -/
def version (header : List Nat) : List Nat := header.drop 263

/-! ## check_archive -/

/-- The offset of the next header, as every scan but the one of `read_file` computes it
(lines 31-38 of `check_archive`). -/
def nextOffset (header : List Nat) (offset : Int) : Int :=
  if typeflag header = DIRTYPE then toInt32 (offset + SizeOfHeader)
  else toInt32 (offset +
    ((SizeOfHeader * 2 - (TAR_INT (size header)).tmod SizeOfHeader) + TAR_INT (size header)))

/-- The `for` loop of `check_archive`: the sum of the bytes of the header as `char`s,
with 32 for each byte of the checksum field. -/
def headerSum : List Nat → Nat → Int → Int
  | [], _, sum => sum
  | b :: bs, i, sum =>
    if i < 156 ∧ i ≥ 148 then headerSum bs (i + 1) (sum + 32)
    else headerSum bs (i + 1) (sum + toChar b)

/-- The `while` loop of `check_archive`. -/
def check_archive_loop (tar : List Nat) : Nat → List Nat → Int → Int → Option Int
  | 0, _, _, _ => none
  | fuel + 1, header, count, offset =>
    let header := pread tar header 512 offset
    if header.getD 0 0 = 0 then some count
    else
      let count := count + 1
      let offset := nextOffset header offset
      if !strncmp_eq TMAGIC (magic header) TMAGLEN then some (-1)
      else if !strncmp_eq TVERSION (version header) TVERSLEN then some (-2)
      else if TAR_INT (chksum header) ≠ headerSum header 0 0 then some (-3)
      else check_archive_loop tar fuel header count offset

/-- The function `check_archive`. -/
def check_archive (fuel : Nat) (tar mem : List Nat) : Option Int :=
  check_archive_loop tar fuel mem 0 0

/-! ## exists, is_dir, is_file, is_symlink -/

/-- The `while` loop of `exists`. -/
def exists_loop (tar path : List Nat) : Nat → List Nat → Int → Option Int
  | 0, _, _ => none
  | fuel + 1, header, offset =>
    let header := pread tar header 512 offset
    if header.getD 0 0 = 0 then some 0
    else if strcmp_eq (name header) path then some 1
    else exists_loop tar path fuel header (nextOffset header offset)

/-- The function `exists` (a reserved word here, hence the name). -/
def tar_exists (fuel : Nat) (tar mem path : List Nat) : Option Int :=
  exists_loop tar path fuel mem 0

/-- The `while` loop of `is_dir`. -/
def is_dir_loop (tar path : List Nat) : Nat → List Nat → Int → Option Int
  | 0, _, _ => none
  | fuel + 1, header, offset =>
    let header := pread tar header 512 offset
    if header.getD 0 0 = 0 then some 0
    else
      let offset := nextOffset header offset
      if strcmp_eq (name header) path then
        if typeflag header = DIRTYPE then some 1 else some 0
      else is_dir_loop tar path fuel header offset

/-- The function `is_dir`. -/
def is_dir (fuel : Nat) (tar mem path : List Nat) : Option Int :=
  is_dir_loop tar path fuel mem 0

/-- The `while` loop of `is_file`. -/
def is_file_loop (tar path : List Nat) : Nat → List Nat → Int → Option Int
  | 0, _, _ => none
  | fuel + 1, header, offset =>
    let header := pread tar header 512 offset
    if header.getD 0 0 = 0 then some 0
    else if strcmp_eq (name header) path then
      if typeflag header = REGTYPE ∨ typeflag header = AREGTYPE then some 1 else some 0
    else is_file_loop tar path fuel header (nextOffset header offset)

/-- The function `is_file`. -/
def is_file (fuel : Nat) (tar mem path : List Nat) : Option Int :=
  is_file_loop tar path fuel mem 0

/-- The `while` loop of `is_symlink`. -/
def is_symlink_loop (tar path : List Nat) : Nat → List Nat → Int → Option Int
  | 0, _, _ => none
  | fuel + 1, header, offset =>
    let header := pread tar header 512 offset
    if header.getD 0 0 = 0 then some 0
    else
      let offset := nextOffset header offset
      if strcmp_eq (name header) path then
        if typeflag header = LNKTYPE ∨ typeflag header = SYMTYPE then some 1 else some 0
      else is_symlink_loop tar path fuel header offset

/-- The function `is_symlink`. -/
def is_symlink (fuel : Nat) (tar mem path : List Nat) : Option Int :=
  is_symlink_loop tar path fuel mem 0

/-! ## list -/

/-- What `list` leaves behind: the return value, `*no_entries`, and the array `entries`. -/
structure ListOut where
  ret : Int
  no_entries : Nat
  entries : List (List Nat)
  deriving DecidableEq, Repr

/-- The `while` loop of `list`. The recursive call of line 280 is `again`; `cap` is the
value of `*no_entries`, which the loop does not change before it returns. -/
def list_loop (tar path : List Nat) (cap : Nat) (path_len : Int)
    (again : List Nat → List (List Nat) → Option ListOut) :
    Nat → List Nat → List (List Nat) → Nat → Int → Option ListOut
  | 0, _, _, _, _ => none
  | fuel + 1, header, entries, entries_number, offset =>
    let header := pread tar header 512 offset
    if header.getD 0 0 = 0 then some ⟨toInt32 entries_number, entries_number, entries⟩
    else if strcmp_eq (name header) path then
      if typeflag header = SYMTYPE ∨ typeflag header = LNKTYPE then
        again (cstr (linkname header)) entries
      else list_loop tar path cap path_len again fuel header entries entries_number
        (nextOffset header offset)
    else if strncmp_eq (name header) path (toSize path_len).toNat then
      if cap ≤ entries_number then some ⟨toInt32 entries_number, entries_number, entries⟩
      else list_loop tar path cap path_len again fuel header
        (entries.set entries_number (cstr (name header))) (entries_number + 1)
        (nextOffset header offset)
    else list_loop tar path cap path_len again fuel header entries entries_number
      (nextOffset header offset)

/-- The function `list`; `cap` is `*no_entries` on entry, `entries` the array of the
caller, `mem` the content of the blocks that `malloc` returns. -/
def list : Nat → List Nat → List Nat → List Nat → List (List Nat) → Nat → Option ListOut
  | 0, _, _, _, _, _ => none
  | fuel + 1, tar, mem, path, entries, cap =>
    let scan : Option ListOut :=
      list_loop tar path cap (toInt32 ((cstr path).length - 1))
        (fun target ents => list fuel tar mem target ents cap) (fuel + 1) mem entries 0 0
    match is_dir (fuel + 1) tar mem path with
    | none => none
    | some d =>
      if d = 0 then
        match is_symlink (fuel + 1) tar mem path with
        | none => none
        | some s => if s = 0 then some ⟨0, 0, entries⟩ else scan
      else scan

/-! ## read_file -/

/-- What `read_file` leaves behind: the return value, `*len`, the bytes that the `pread`
of line 370 has put into `dest`, the offset and count that it was called with (when it
was called), and the bytes that it has written after the end of `dest`. The buffer `dest`
holds as many bytes as `*len` says on entry; when `overrun` is not empty the C program has
written outside it and its behaviour is not defined from there on: `ret` and `len` then
tell what the code has computed. -/
structure ReadOut where
  ret : Int
  len : Int
  dest : List Nat
  request : Option (Int × Int)
  overrun : List Nat
  deriving DecidableEq, Repr

/-- The `while` loop of `read_file`. The recursive call of line 352 is `again`; its value
is stored in the `int value`. The bytes that `pread` returns are split at the size of
`dest`, which is `len`, the value of `*len` on entry. -/
def read_file_loop (tar path : List Nat) (offset len : Int) (again : List Nat → Option ReadOut) :
    Nat → List Nat → Int → Option ReadOut
  | 0, _, _ => none
  | fuel + 1, header, head_offset =>
    if head_offset + SizeOfHeader < tar.length then
      let header := pread tar header 512 head_offset
      if strcmp_eq path (name header) then
        if typeflag header = LNKTYPE ∨ typeflag header = SYMTYPE then
          (again (cstr (linkname header))).map (fun out => { out with ret := toInt32 out.ret })
        else if offset > toSize (TAR_INT (size header)) then
          some ⟨-2, len, [], none, []⟩
        else
          let head_offset := toInt32 (head_offset + SizeOfHeader + offset)
          if toSize (TAR_INT (size header)) ≤ toSize (len + offset) then
            let to_read := toInt32 (TAR_INT (size header))
            let got := pread tar [] (toSize to_read).toNat head_offset
            some ⟨0, toSize (TAR_INT (size header) - offset), got.take len.toNat,
              some (head_offset, toSize to_read), got.drop len.toNat⟩
          else
            let to_read := toInt32 len
            let got := pread tar [] (toSize to_read).toNat head_offset
            some ⟨toInt32 (TAR_INT (size header) - len - offset), len, got.take len.toNat,
              some (head_offset, toSize to_read), got.drop len.toNat⟩
      else if TAR_INT (size header) = 0 then
        read_file_loop tar path offset len again fuel header (toInt32 (head_offset + SizeOfHeader))
      else
        read_file_loop tar path offset len again fuel header
          (toInt32 (head_offset + (TAR_INT (size header) + 2 * SizeOfHeader
            - (TAR_INT (size header)).tmod SizeOfHeader)))
    else some ⟨head_offset - tar.length, len, [], none, []⟩

/-- The function `read_file`; `offset` and `len` (the value of `*len` on entry) are
`size_t` values. -/
def read_file : Nat → List Nat → List Nat → List Nat → Int → Int → Option ReadOut
  | 0, _, _, _, _, _ => none
  | fuel + 1, tar, mem, path, offset, len =>
    match is_file (fuel + 1) tar mem path with
    | none => none
    | some f =>
      if f = 0 then some ⟨-1, len, [], none, []⟩
      else read_file_loop tar path offset len
        (fun target => read_file fuel tar mem target offset len) (fuel + 1) mem 0

/-! ## Archives laid out as the data model prescribes -/

/-- The last `w` octal digits of `n`, in ASCII. -/
def octal : Nat → Nat → List Nat
  | 0, _ => []
  | w + 1, n => octal w (n / 8) ++ [48 + n % 8]

/-- A field of `w` bytes holding `s`, padded with nulls. -/
def field (w : Nat) (s : List Nat) : List Nat := (s ++ List.replicate w 0).take w

/-- The header block without its checksum: 8 spaces stand in the checksum field. -/
def rawHeader (nm : List Nat) (flag sz : Nat) (link : List Nat) : List Nat :=
  field 100 nm ++ field 8 (octal 7 420) ++ field 8 (octal 7 0) ++ field 8 (octal 7 0) ++
  field 12 (octal 11 sz) ++ field 12 (octal 11 0) ++ List.replicate 8 32 ++ [flag] ++
  field 100 link ++ [117, 115, 116, 97, 114, 0] ++ [48, 48] ++ List.replicate 247 0

/-- A valid header block: magic `"ustar"` and a null, version `"00"`, and the checksum
as six octal digits, a null and a space. -/
def mkHeader (nm : List Nat) (flag sz : Nat) (link : List Nat) : List Nat :=
  let raw := rawHeader nm flag sz link
  raw.take 148 ++ octal 6 raw.sum ++ [0, 32] ++ raw.drop 156

/-- The payload blocks of `data`: the bytes, padded with nulls to a multiple of 512. -/
def payload (data : List Nat) : List Nat :=
  data ++ List.replicate ((512 - data.length % 512) % 512) 0

/-- The zero-filled block that ends an archive. -/
def terminator : List Nat := List.replicate 512 0

/-! ## The sequence of headers that a scan visits -/

/-- The headers that a scan of the archive visits, each with its offset, in scan order:
it starts at `offset` with the buffer `header`, moves by `nextOffset`, and stops before
the first header whose name begins with a null. At most `fuel` headers are listed. -/
def scan (tar : List Nat) : Nat → List Nat → Int → List (Int × List Nat)
  | 0, _, _ => []
  | fuel + 1, header, offset =>
    let header := pread tar header 512 offset
    if header.getD 0 0 = 0 then []
    else (offset, header) :: scan tar fuel header (nextOffset header offset)

/-- Whether the scan reaches a header whose name begins with a null within `fuel` reads. -/
def scanEnds (tar : List Nat) : Nat → List Nat → Int → Bool
  | 0, _, _ => false
  | fuel + 1, header, offset =>
    let header := pread tar header 512 offset
    if header.getD 0 0 = 0 then true
    else scanEnds tar fuel header (nextOffset header offset)

/-- The magic field holds `"ustar"` and a null (bytes 257 to 262). -/
def magicOk (h : List Nat) : Bool :=
  h.getD 257 0 == 117 && h.getD 258 0 == 115 && h.getD 259 0 == 116 &&
  h.getD 260 0 == 97 && h.getD 261 0 == 114 && h.getD 262 0 == 0

/-- The version field holds `"00"` (bytes 263 and 264). -/
def versionOk (h : List Nat) : Bool := h.getD 263 0 == 48 && h.getD 264 0 == 48

/-- The sum of the checksum algorithm: every byte of the block as an unsigned value, with
32 for each byte of the checksum field (bytes 148 to 155). -/
def unsignedSum : List Nat → Nat → Nat → Nat
  | [], _, sum => sum
  | b :: bs, i, sum =>
    if 148 ≤ i ∧ i < 156 then unsignedSum bs (i + 1) (sum + 32)
    else unsignedSum bs (i + 1) (sum + b % 256)

/-- The checksum of the header is right: the octal value of the checksum field equals the
sum of the bytes of the block as unsigned values, with 32 for the bytes of the field. -/
def checksumOk (h : List Nat) : Bool := TAR_INT (chksum h) == (unsignedSum h 0 0 : Int)

/-- The first check that a header fails, in the order magic, version, checksum, as the
code that `check_archive` is to return for it; `0` when the header passes all three. -/
def firstError (h : List Nat) : Int :=
  if !magicOk h then -1 else if !versionOk h then -2 else if !checksumOk h then -3 else 0

/-- The comparison of line 59: the value of the checksum field against the sum of the
`for` loop of lines 51-58. -/
def sumTest (header : List Nat) : Bool := TAR_INT (chksum header) == headerSum header 0 0

/-- The checks of lines 39-62 on a header: the value that `check_archive` returns for it,
and 0 when the loop goes on to the next header. -/
def headerCode (header : List Nat) : Int :=
  if !strncmp_eq TMAGIC (magic header) TMAGLEN then -1
  else if !strncmp_eq TVERSION (version header) TVERSLEN then -2
  else if TAR_INT (chksum header) ≠ headerSum header 0 0 then -3
  else 0

/-- The header at which the loop of `read_file` stops, with its offset: the first one in
the scan of `read_file` whose name equals `path`; the scan goes on while a header and one
more byte lie before the end of the file, and moves on as lines 377-380 say. -/
def locate (tar path : List Nat) : Nat → List Nat → Int → Option (Int × List Nat)
  | 0, _, _ => none
  | fuel + 1, header, head_offset =>
    if head_offset + SizeOfHeader < tar.length then
      let header := pread tar header 512 head_offset
      if strcmp_eq path (name header) then some (head_offset, header)
      else if TAR_INT (size header) = 0 then
        locate tar path fuel header (toInt32 (head_offset + SizeOfHeader))
      else
        locate tar path fuel header
          (toInt32 (head_offset + (TAR_INT (size header) + 2 * SizeOfHeader
            - (TAR_INT (size header)).tmod SizeOfHeader)))
    else none

/-- What lines 354-371 of `read_file` do with the header `h` found at `ho`. -/
def readAt (tar h : List Nat) (ho offset len : Int) : ReadOut :=
  if offset > toSize (TAR_INT (size h)) then ⟨-2, len, [], none, []⟩
  else if toSize (TAR_INT (size h)) ≤ toSize (len + offset) then
    ⟨0, toSize (TAR_INT (size h) - offset),
      (pread tar [] (toSize (toInt32 (TAR_INT (size h)))).toNat
        (toInt32 (ho + SizeOfHeader + offset))).take len.toNat,
      some (toInt32 (ho + SizeOfHeader + offset), toSize (toInt32 (TAR_INT (size h)))),
      (pread tar [] (toSize (toInt32 (TAR_INT (size h)))).toNat
        (toInt32 (ho + SizeOfHeader + offset))).drop len.toNat⟩
  else
    ⟨toInt32 (TAR_INT (size h) - len - offset), len,
      (pread tar [] (toSize (toInt32 len)).toNat (toInt32 (ho + SizeOfHeader + offset))).take
        len.toNat,
      some (toInt32 (ho + SizeOfHeader + offset), toSize (toInt32 len)),
      (pread tar [] (toSize (toInt32 len)).toNat (toInt32 (ho + SizeOfHeader + offset))).drop
        len.toNat⟩

/-! ## Concrete archives -/

/-- A block as `malloc` may return it: 512 null bytes. -/
def zeroMem : List Nat := List.replicate 512 0

/-- The regular file `a` of size 0, the directory `d/`, and the terminator block. -/
def emptyFileArchive : List Nat :=
  mkHeader [97] 48 0 [] ++ mkHeader [100, 47] 53 0 [] ++ terminator

/-- The path `dir/`. -/
def dirPath : List Nat := [100, 105, 114, 47]

/-- The archive of the example of `list`: `dir/`, `dir/a`, `dir/b`, `dir/c/`, `dir/c/d`;
the three files hold one byte each. -/
def treeArchive : List Nat :=
  mkHeader dirPath 53 0 [] ++
  mkHeader (dirPath ++ [97]) 48 1 [] ++ payload [120] ++
  mkHeader (dirPath ++ [98]) 48 1 [] ++ payload [121] ++
  mkHeader (dirPath ++ [99, 47]) 53 0 [] ++
  mkHeader (dirPath ++ [99, 47, 100]) 48 1 [] ++ payload [122] ++ terminator

/-- The directory `dir/` alone, and the terminator block. -/
def emptyDirArchive : List Nat := mkHeader dirPath 53 0 [] ++ terminator

/-- The regular file `f` holding `abc`, the symbolic link `l` to `f`, and two
terminator blocks. -/
def linkArchive : List Nat :=
  mkHeader [102] 48 3 [] ++ payload [97, 98, 99] ++ mkHeader [108] 50 0 [102] ++
  terminator ++ terminator

/-- The regular file `f` holding 100 bytes of value 7, and the terminator block. -/
def hundredArchive : List Nat :=
  mkHeader [102] 48 100 [] ++ payload (List.replicate 100 7) ++ terminator

/-- The header of the regular file `big`, of size 3 GiB (3221225472 bytes). -/
def bigHeader : List Nat := mkHeader [98, 105, 103] 48 3221225472 []

/-- The regular file `big` of 3 GiB of null bytes, and the terminator block. -/
def bigArchive : List Nat := bigHeader ++ (List.replicate 3221225472 0 ++ terminator)

/-- The regular file `a` holding one byte, and the terminator block. -/
def oneFileArchive : List Nat := mkHeader [97] 48 1 [] ++ payload [120] ++ terminator

/-- The offset of the next header as the loop of `read_file` computes it (lines 377-380):
the size decides alone, the typeflag is not looked at. -/
def readNextOffset (header : List Nat) (head_offset : Int) : Int :=
  if TAR_INT (size header) = 0 then toInt32 (head_offset + SizeOfHeader)
  else toInt32 (head_offset + (TAR_INT (size header) + 2 * SizeOfHeader
    - (TAR_INT (size header)).tmod SizeOfHeader))

/-- The directory `d/` with a stated size of 100 (and no payload block), the regular file
`f` holding `abc`, and the terminator block. -/
def sizedDirArchive : List Nat :=
  mkHeader [100, 47] 53 100 [] ++ mkHeader [102] 48 3 [] ++ payload [97, 98, 99] ++ terminator

/-- The directory `d/`, the regular files `lib` and `lic` of one byte each, the symbolic
link `li` to `d/`, and two terminator blocks. -/
def linkListArchive : List Nat :=
  mkHeader [100, 47] 53 0 [] ++
  mkHeader [108, 105, 98] 48 1 [] ++ payload [120] ++
  mkHeader [108, 105, 99] 48 1 [] ++ payload [121] ++
  mkHeader [108, 105] 50 0 [100, 47] ++ terminator ++ terminator

/-- The regular file whose name is the two bytes of `é` in UTF-8, holding one byte, and the
terminator block. -/
def accentArchive : List Nat := mkHeader [195, 169] 48 1 [] ++ payload [120] ++ terminator

/-- The test of lines 278 and 285 of `list`: the header is listed as an entry of `path`
when its name is not `path` and agrees with it on the first `strlen(path) - 1` bytes. -/
def listed (path : List Nat) (v : Int × List Nat) : Bool :=
  !strcmp_eq (name v.2) path &&
    strncmp_eq (name v.2) path (toSize (toInt32 ((cstr path).length - 1))).toNat

/-- The array `entries` after the names have been written from index `n` on. -/
def writeNames (entries : List (List Nat)) (n : Nat) : List (List Nat) → List (List Nat)
  | [] => entries
  | x :: xs => writeNames (entries.set n x) (n + 1) xs

/-- The directory `dir/` with the two regular files `dir/a` and `dir/b`, of one byte each,
and the terminator block. -/
def twoArchive : List Nat :=
  mkHeader dirPath 53 0 [] ++
  mkHeader (dirPath ++ [97]) 48 1 [] ++ payload [120] ++
  mkHeader (dirPath ++ [98]) 48 1 [] ++ payload [121] ++ terminator

/-- The name of an entry: the bytes of the 100-byte name field of its header before the
first null of the field, all 100 of them when the field holds no null. -/
def entryName (header : List Nat) : List Nat := cstr (header.take 100)

/-- A name of 100 bytes, 100 times the letter `n`: it fills the name field. -/
def longName : List Nat := List.replicate 100 110

/-- The regular file of one byte whose name is `longName`, and the terminator block. -/
def fullNameArchive : List Nat := mkHeader longName 48 1 [] ++ payload [120] ++ terminator

/-- The header of the file named `é` (bytes 195 and 169) with 2890 in its checksum field,
the sum of its bytes taken as `char`s; the sum of the bytes as unsigned values is 3402. -/
def signedSumHeader : List Nat :=
  (rawHeader [195, 169] 48 1 []).take 148 ++ octal 6 2890 ++ [0, 32] ++
    (rawHeader [195, 169] 48 1 []).drop 156

/-- The file of `signedSumHeader`, holding one byte, and the terminator block. -/
def signedSumArchive : List Nat := signedSumHeader ++ payload [120] ++ terminator

/-! ## Theorems -/

set_option maxRecDepth 10000

/-- A read of a whole block at the start of the archive overwrites the buffer. -/
theorem pread_start (tar buf : List Nat) (ht : 512 ≤ tar.length) (hb : buf.length ≤ 512) :
    pread tar buf 512 0 = tar.take 512 := by
  have hlen : (tar.take 512).length = 512 := by simp [List.length_take]; omega
  simp [pread, hlen, List.drop_eq_nil_of_le hb]

theorem check_archive_mem (fuel : Nat) (tar mem : List Nat) (ht : 512 ≤ tar.length)
    (hm : mem.length = 512) : check_archive fuel tar mem = check_archive fuel tar zeroMem := by
  cases fuel with
  | zero => rfl
  | succ n =>
    simp only [check_archive, check_archive_loop]
    rw [pread_start tar mem ht (by omega), pread_start tar zeroMem ht (by simp [zeroMem])]

theorem emptyFileArchive_length : emptyFileArchive.length = 1536 := by decide!

/-- C1: with a regular file of size 0 in front of a directory, `check_archive` counts one
header where the archive has two: after the empty file the scan moves on by two blocks. -/
theorem check_archive_skips_after_empty_file (mem : List Nat) (hm : mem.length = 512) :
    check_archive 2 emptyFileArchive mem = some 1 := by
  rw [check_archive_mem 2 _ mem (by rw [emptyFileArchive_length]; omega) hm]
  decide!

theorem check_archive_skips_after_empty_file_witness :
    zeroMem.length = 512 ∧ check_archive 2 emptyFileArchive zeroMem = some 1 :=
  ⟨by decide, check_archive_skips_after_empty_file zeroMem (by decide)⟩


theorem getD_drop (l : List Nat) (n i : Nat) : (l.drop n).getD i 0 = l.getD (n + i) 0 := by
  simp [List.getD_eq_getElem?_getD, List.getElem?_drop]

theorem decide_eq_flip (a b : Nat) : decide (a = b) = (b == a) := by
  by_cases h : a = b
  · simp [h]
  · have h2 : ¬ b = a := fun e => h e.symm
    simp [h, h2]

theorem strncmp_magic (m : List Nat) :
    strncmp_eq TMAGIC m TMAGLEN =
      (m.getD 0 0 == 117 && m.getD 1 0 == 115 && m.getD 2 0 == 116 &&
        m.getD 3 0 == 97 && m.getD 4 0 == 114 && m.getD 5 0 == 0) := by
  rcases m with _ | ⟨b0, _ | ⟨b1, _ | ⟨b2, _ | ⟨b3, _ | ⟨b4, _ | ⟨b5, m⟩⟩⟩⟩⟩⟩ <;>
    simp [strncmp_eq, TMAGIC, TMAGLEN, Bool.and_assoc, decide_eq_flip]

theorem strncmp_version (m : List Nat) :
    strncmp_eq TVERSION m TVERSLEN = (m.getD 0 0 == 48 && m.getD 1 0 == 48) := by
  rcases m with _ | ⟨b0, _ | ⟨b1, m⟩⟩ <;>
    simp [strncmp_eq, TVERSION, TVERSLEN, Bool.and_assoc, decide_eq_flip]

theorem magic_test (h : List Nat) : strncmp_eq TMAGIC (magic h) TMAGLEN = magicOk h := by
  simp [strncmp_magic, magic, magicOk, getD_drop]

theorem version_test (h : List Nat) : strncmp_eq TVERSION (version h) TVERSLEN = versionOk h := by
  simp [strncmp_version, version, versionOk, getD_drop]

theorem headerCode_eq (h : List Nat) :
    headerCode h =
      if !magicOk h then -1 else if !versionOk h then -2 else if !sumTest h then -3 else 0 := by
  simp only [headerCode, magic_test, version_test, sumTest]
  cases magicOk h <;> cases versionOk h <;>
  by_cases h3 : TAR_INT (chksum h) = headerSum h 0 0 <;> simp [h3]

/-- One turn of the loop of `check_archive`, in terms of the checks on the header read. -/
theorem check_archive_loop_succ (tar : List Nat) (fuel : Nat) (header : List Nat)
    (count offset : Int) :
    check_archive_loop tar (fuel + 1) header count offset =
      if (pread tar header 512 offset).getD 0 0 = 0 then some count
      else if headerCode (pread tar header 512 offset) ≠ 0 then
        some (headerCode (pread tar header 512 offset))
      else check_archive_loop tar fuel (pread tar header 512 offset) (count + 1)
        (nextOffset (pread tar header 512 offset) offset) := by
  simp only [check_archive_loop, headerCode_eq, magic_test, version_test, sumTest]
  generalize pread tar header 512 offset = H
  by_cases h0 : H.getD 0 0 = 0
  · rw [if_pos h0, if_pos h0]
  · rw [if_neg h0, if_neg h0]
    cases h1 : magicOk H <;> cases h2 : versionOk H <;>
    by_cases h3 : TAR_INT (chksum H) = headerSum H 0 0 <;>
    simp [h3]

theorem headerCode_neg (h : List Nat) (hne : headerCode h ≠ 0) : headerCode h < 0 := by
  simp only [headerCode_eq] at *
  split_ifs at * <;> simp_all

theorem headerCode_zero (h : List Nat) (hz : headerCode h = 0) :
    magicOk h = true ∧ versionOk h = true ∧ sumTest h = true := by
  rw [headerCode_eq] at hz
  split_ifs at hz
  simp_all

theorem take_drop_set (tar : List Nat) (o p b : Nat) :
    ((tar.set p b).drop o).take 512 =
      if o ≤ p ∧ p < o + 512 then ((tar.drop o).take 512).set (p - o) b
      else (tar.drop o).take 512 := by
  rw [List.drop_set]
  by_cases h1 : p < o
  · rw [if_pos h1, if_neg (by omega)]
  · rw [if_neg h1, List.set_take]
    by_cases h2 : p < o + 512
    · rw [if_pos ⟨by omega, h2⟩]
    · rw [if_neg (by omega)]
      apply List.set_eq_of_length_le
      rw [List.length_take]
      omega

/-- A read whose block does not hold byte `p` does not see a change of that byte. -/
theorem pread_set_outside (tar buf : List Nat) (off : Int) (p b : Nat)
    (h : ¬ (off ≤ p ∧ (p : Int) < off + 512)) :
    pread (tar.set p b) buf 512 off = pread tar buf 512 off := by
  unfold pread
  by_cases hneg : off < 0
  · rw [if_pos hneg, if_pos hneg]
  · rw [if_neg hneg, if_neg hneg]
    simp only
    rw [take_drop_set, if_neg (by omega)]

/-- A read whose block holds byte `p` sees a change of that byte at index `p - off`. -/
theorem pread_set_inside (tar buf : List Nat) (off : Int) (p b : Nat)
    (h0 : 0 ≤ off) (h1 : off.toNat ≤ p) (h2 : p < off.toNat + 512) (h3 : p < tar.length) :
    pread (tar.set p b) buf 512 off = (pread tar buf 512 off).set (p - off.toNat) b := by
  unfold pread
  rw [if_neg (by omega), if_neg (by omega)]
  simp only
  rw [take_drop_set, if_pos ⟨h1, h2⟩, List.length_set, List.set_append_left]
  rw [List.length_take, List.length_drop]
  omega

theorem getD_set_ne (l : List Nat) (n m b : Nat) (h : n ≠ m) :
    (l.set n b).getD m 0 = l.getD m 0 := by
  simp [List.getD_eq_getElem?_getD, List.getElem?_set_ne h]

theorem headerSum_set (b : Nat) :
    ∀ (l : List Nat) (i idx : Nat) (s : Int), 148 ≤ i + idx → i + idx < 156 →
      headerSum (l.set idx b) i s = headerSum l i s := by
  intro l
  induction l with
  | nil => intro i idx s _ _; rfl
  | cons a l ih =>
    intro i idx s h1 h2
    cases idx with
    | zero =>
      simp only [List.set_cons_zero, headerSum]
      rw [if_pos ⟨by omega, by omega⟩, if_pos ⟨by omega, by omega⟩]
    | succ idx =>
      simp only [List.set_cons_succ, headerSum]
      rw [ih (i + 1) idx _ (by omega) (by omega), ih (i + 1) idx _ (by omega) (by omega)]

theorem headerCode_set_chksum (h : List Nat) (i b : Nat) (hi : i < 8)
    (hok : headerCode h = 0) (hval : TAR_INT (chksum (h.set (148 + i) b)) ≠ TAR_INT (chksum h)) :
    headerCode (h.set (148 + i) b) = -3 := by
  obtain ⟨hm, hv, hc⟩ := headerCode_zero h hok
  have hm2 : magicOk (h.set (148 + i) b) = true := by
    rw [← hm]; unfold magicOk
    repeat rw [getD_set_ne _ _ _ _ (by omega)]
  have hv2 : versionOk (h.set (148 + i) b) = true := by
    rw [← hv]; unfold versionOk
    repeat rw [getD_set_ne _ _ _ _ (by omega)]
  have hc2 : sumTest (h.set (148 + i) b) = false := by
    unfold sumTest at *
    rw [headerSum_set b h 0 (148 + i) 0 (by omega) (by omega)]
    simp only [beq_iff_eq] at hc
    rw [← hc]
    simpa using hval
  simp [headerCode_eq, hm2, hv2, hc2]

theorem scan_succ (tar : List Nat) (fuel : Nat) (header : List Nat) (offset : Int) :
    scan tar (fuel + 1) header offset =
      if (pread tar header 512 offset).getD 0 0 = 0 then []
      else (offset, pread tar header 512 offset) ::
        scan tar fuel (pread tar header 512 offset)
          (nextOffset (pread tar header 512 offset) offset) := rfl

theorem check_archive_loop_mutation (tar : List Nat) (p b i : Nat) (o : Int) (h : List Nat)
    (n : Int) (hn : 0 ≤ n) (ho : 0 ≤ o) (hi : i < 8) (hp : p = o.toNat + 148 + i)
    (hlen : p < tar.length)
    (hval : TAR_INT (chksum (h.set (148 + i) b)) ≠ TAR_INT (chksum h)) :
    ∀ (k fuel : Nat) (header : List Nat) (count offset : Int),
      check_archive_loop tar fuel header count offset = some n →
      (scan tar fuel header offset)[k]? = some (o, h) →
      (∀ j < k, ∀ v, (scan tar fuel header offset)[j]? = some v →
        ¬ (v.1 ≤ p ∧ (p : Int) < v.1 + 512)) →
      check_archive_loop (tar.set p b) fuel header count offset = some (-3) := by
  intro k
  induction k with
  | zero =>
    intro fuel header count offset hacc hk _
    cases fuel with
    | zero => simp [scan] at hk
    | succ f =>
      rw [scan_succ] at hk
      rw [check_archive_loop_succ] at hacc
      rw [check_archive_loop_succ]
      by_cases h0 : (pread tar header 512 offset).getD 0 0 = 0
      · rw [if_pos h0] at hk; simp at hk
      · rw [if_neg h0] at hk hacc
        simp only [List.getElem?_cons_zero, Option.some.injEq, Prod.mk.injEq] at hk
        obtain ⟨rfl, rfl⟩ := hk
        have hok : headerCode (pread tar header 512 offset) = 0 := by
          by_contra hne
          rw [if_pos hne] at hacc
          have := headerCode_neg _ hne
          simp only [Option.some.injEq] at hacc
          omega
        have hread : pread (tar.set p b) header 512 offset =
            (pread tar header 512 offset).set (148 + i) b := by
          rw [pread_set_inside tar header offset p b ho (by omega) (by omega) hlen]
          congr 1
          omega
        rw [hread]
        have h0' : ¬ ((pread tar header 512 offset).set (148 + i) b).getD 0 0 = 0 := by
          rw [getD_set_ne _ _ _ _ (by omega)]; exact h0
        rw [if_neg h0', headerCode_set_chksum _ i b hi hok hval]
        simp
  | succ k ih =>
    intro fuel header count offset hacc hk hearlier
    cases fuel with
    | zero => simp [scan] at hk
    | succ f =>
      rw [scan_succ] at hk hearlier
      rw [check_archive_loop_succ] at hacc
      rw [check_archive_loop_succ]
      by_cases h0 : (pread tar header 512 offset).getD 0 0 = 0
      · rw [if_pos h0] at hk; simp at hk
      · rw [if_neg h0] at hk hacc hearlier
        have hok : headerCode (pread tar header 512 offset) = 0 := by
          by_contra hne
          rw [if_pos hne] at hacc
          have := headerCode_neg _ hne
          simp only [Option.some.injEq] at hacc
          omega
        have hsame : pread (tar.set p b) header 512 offset = pread tar header 512 offset :=
          pread_set_outside tar header offset p b
            (hearlier 0 (Nat.succ_pos k) (offset, pread tar header 512 offset)
              (List.getElem?_cons_zero ..))
        rw [hsame, if_neg h0, if_neg (by simpa using hok)]
        rw [if_neg (by simpa using hok)] at hacc
        rw [List.getElem?_cons_succ] at hk
        apply ih f _ _ _ hacc hk
        intro j hj v hv
        exact hearlier (j + 1) (Nat.succ_lt_succ hj) v (by rw [List.getElem?_cons_succ]; exact hv)

/-- C3: a change of one byte of the checksum field that leaves the octal value of the field
as it was does not make `check_archive` reject: the archive holds the file `a`, byte 155 is
the space after the null that ends the digits, and with `A` in its place the archive is
accepted as before. -/
theorem checksum_byte_after_null_ignored :
    check_archive 2 oneFileArchive zeroMem = some 1 ∧
    oneFileArchive.getD 155 0 = 32 ∧
    check_archive 2 (oneFileArchive.set 155 65) zeroMem = some 1 := by
  decide!

/-- C3, amended: in an archive that `check_archive` accepts, a change of one byte of the
checksum field of a scanned header that changes the octal value of the field makes
`check_archive` return -3, when the byte lies in none of the blocks read before. -/
theorem checksum_value_mutation_rejected (fuel : Nat) (tar mem : List Nat) (k i p b : Nat)
    (o : Int) (h : List Nat) (n : Int)
    (hacc : check_archive fuel tar mem = some n) (hn : 0 ≤ n)
    (hk : (scan tar fuel mem 0)[k]? = some (o, h))
    (ho : 0 ≤ o) (hi : i < 8) (hp : p = o.toNat + 148 + i) (hlen : p < tar.length)
    (hearlier : ∀ j < k, ∀ v, (scan tar fuel mem 0)[j]? = some v →
      ¬ (v.1 ≤ p ∧ (p : Int) < v.1 + 512))
    (hval : TAR_INT (chksum (h.set (148 + i) b)) ≠ TAR_INT (chksum h)) :
    check_archive fuel (tar.set p b) mem = some (-3) :=
  check_archive_loop_mutation tar p b i o h n hn ho hi hp hlen hval k fuel mem 0 0 hacc hk hearlier

theorem checksum_value_mutation_rejected_witness :
    check_archive 2 (oneFileArchive.set 153 49) zeroMem = some (-3) :=
  checksum_value_mutation_rejected 2 oneFileArchive zeroMem 0 5 153 49 0
    (mkHeader [97] 48 1 []) 1 (by decide) (by decide) (by decide) (by decide) (by decide)
    (by decide) (by decide) (by intro j hj; omega) (by decide)
theorem scanEnds_succ (tar : List Nat) (fuel : Nat) (header : List Nat) (offset : Int) :
    scanEnds tar (fuel + 1) header offset =
      if (pread tar header 512 offset).getD 0 0 = 0 then true
      else scanEnds tar fuel (pread tar header 512 offset)
          (nextOffset (pread tar header 512 offset) offset) := rfl

theorem exists_loop_spec (tar path : List Nat) (fuel : Nat) :
    ∀ (header : List Nat) (offset : Int),
      exists_loop tar path fuel header offset =
        if (scan tar fuel header offset).any (fun v => strcmp_eq (name v.2) path) then some 1
        else if scanEnds tar fuel header offset then some 0 else none := by
  induction fuel with
  | zero => intro header offset; simp [exists_loop, scan, scanEnds]
  | succ n ih =>
    intro header offset
    rw [scan_succ, scanEnds_succ]
    simp only [exists_loop]
    generalize pread tar header 512 offset = H
    by_cases h0 : H.getD 0 0 = 0
    · simp only [if_pos h0]; simp
    · simp only [if_neg h0]
      cases h1 : strcmp_eq (name H) path with
      | true =>
        rw [List.any_cons]
        simp only [h1, Bool.true_or, if_true]
      | false =>
        rw [ih, List.any_cons]
        simp only [h1, Bool.false_or, Bool.false_eq_true, if_false]

theorem pread_start_mem (tar mem : List Nat) (ht : 512 ≤ tar.length) (hm : mem.length = 512) :
    pread tar mem 512 0 = pread tar zeroMem 512 0 := by
  rw [pread_start tar mem ht (by omega), pread_start tar zeroMem ht (by simp [zeroMem])]

theorem tar_exists_mem (fuel : Nat) (tar mem path : List Nat) (ht : 512 ≤ tar.length)
    (hm : mem.length = 512) : tar_exists fuel tar mem path = tar_exists fuel tar zeroMem path := by
  cases fuel with
  | zero => rfl
  | succ n => simp only [tar_exists, exists_loop]; rw [pread_start_mem tar mem ht hm]

theorem is_dir_mem (fuel : Nat) (tar mem path : List Nat) (ht : 512 ≤ tar.length)
    (hm : mem.length = 512) : is_dir fuel tar mem path = is_dir fuel tar zeroMem path := by
  cases fuel with
  | zero => rfl
  | succ n => simp only [is_dir, is_dir_loop]; rw [pread_start_mem tar mem ht hm]

theorem is_file_mem (fuel : Nat) (tar mem path : List Nat) (ht : 512 ≤ tar.length)
    (hm : mem.length = 512) : is_file fuel tar mem path = is_file fuel tar zeroMem path := by
  cases fuel with
  | zero => rfl
  | succ n => simp only [is_file, is_file_loop]; rw [pread_start_mem tar mem ht hm]

theorem is_symlink_mem (fuel : Nat) (tar mem path : List Nat) (ht : 512 ≤ tar.length)
    (hm : mem.length = 512) :
    is_symlink fuel tar mem path = is_symlink fuel tar zeroMem path := by
  cases fuel with
  | zero => rfl
  | succ n => simp only [is_symlink, is_symlink_loop]; rw [pread_start_mem tar mem ht hm]

theorem list_mem (tar mem : List Nat) (cap : Nat) (ht : 512 ≤ tar.length)
    (hm : mem.length = 512) :
    ∀ (fuel : Nat) (path : List Nat) (entries : List (List Nat)),
      list fuel tar mem path entries cap = list fuel tar zeroMem path entries cap := by
  intro fuel
  induction fuel with
  | zero => intro path entries; rfl
  | succ n ih =>
    intro path entries
    have hagain : (fun target ents => list n tar mem target ents cap) =
        (fun target ents => list n tar zeroMem target ents cap) := by
      funext target ents; exact ih target ents
    simp only [list, list_loop]
    rw [is_dir_mem _ tar mem path ht hm, is_symlink_mem _ tar mem path ht hm,
      pread_start_mem tar mem ht hm, hagain]
    simp only [ih]

theorem read_file_mem (tar mem : List Nat) (offset len : Int) (ht : 512 ≤ tar.length)
    (hm : mem.length = 512) :
    ∀ (fuel : Nat) (path : List Nat),
      read_file fuel tar mem path offset len = read_file fuel tar zeroMem path offset len := by
  intro fuel
  induction fuel with
  | zero => intro path; rfl
  | succ n ih =>
    intro path
    have hagain : (fun target => read_file n tar mem target offset len) =
        (fun target => read_file n tar zeroMem target offset len) := by
      funext target; exact ih target
    simp only [read_file, read_file_loop]
    rw [is_file_mem _ tar mem path ht hm, pread_start_mem tar mem ht hm, hagain]
    simp only [ih]
theorem treeArchive_length : treeArchive.length = 4608 := by decide!
theorem emptyDirArchive_length : emptyDirArchive.length = 1024 := by decide!
theorem linkArchive_length : linkArchive.length = 2560 := by decide!
theorem hundredArchive_length : hundredArchive.length = 1536 := by decide!

/-- C5: the archive holds the regular file `a`, of size 0, and then the directory `d/`;
`exists` and `is_dir` both return 0 for `d/`: after the empty file the scan moves on by
two blocks and never reads the header of `d/`. -/
theorem entry_after_empty_file_not_found (mem : List Nat) (hm : mem.length = 512) :
    tar_exists 2 emptyFileArchive mem [100, 47] = some 0 ∧
    is_dir 2 emptyFileArchive mem [100, 47] = some 0 := by
  rw [tar_exists_mem 2 _ mem _ (by rw [emptyFileArchive_length]; omega) hm,
    is_dir_mem 2 _ mem _ (by rw [emptyFileArchive_length]; omega) hm]
  decide!

theorem entry_after_empty_file_not_found_witness :
    tar_exists 2 emptyFileArchive zeroMem [100, 47] = some 0 ∧
    is_dir 2 emptyFileArchive zeroMem [100, 47] = some 0 :=
  entry_after_empty_file_not_found zeroMem (by decide)

/-- C6: for `dir/` holding `a`, `b` and `c/`, and `c/` holding `d`, `list` of `dir/` with
room for 10 entries writes four names, the last one being `dir/c/d`, two levels below. -/
theorem list_yields_nested_entry (mem : List Nat) (hm : mem.length = 512) :
    list 6 treeArchive mem dirPath (List.replicate 10 []) 10 =
      some ⟨4, 4, [dirPath ++ [97], dirPath ++ [98], dirPath ++ [99, 47],
        dirPath ++ [99, 47, 100], [], [], [], [], [], []]⟩ := by
  rw [list_mem _ mem _ (by rw [treeArchive_length]; omega) hm]
  decide!

theorem list_yields_nested_entry_witness :
    list 6 treeArchive zeroMem dirPath (List.replicate 10 []) 10 =
      some ⟨4, 4, [dirPath ++ [97], dirPath ++ [98], dirPath ++ [99, 47],
        dirPath ++ [99, 47, 100], [], [], [], [], [], []]⟩ :=
  list_yields_nested_entry zeroMem (by decide)

/-- C7: the archive holds the directory `dir/` and nothing else; `is_dir` finds it, and
`list` of `dir/` returns 0, with room for 4 entries as with room for none. -/
theorem list_empty_directory_returns_zero (mem : List Nat) (hm : mem.length = 512) :
    is_dir 2 emptyDirArchive mem dirPath = some 1 ∧
    list 2 emptyDirArchive mem dirPath (List.replicate 4 []) 4 =
      some ⟨0, 0, List.replicate 4 []⟩ ∧
    list 2 emptyDirArchive mem dirPath [] 0 = some ⟨0, 0, []⟩ := by
  rw [is_dir_mem _ _ mem _ (by rw [emptyDirArchive_length]; omega) hm,
    list_mem _ mem _ (by rw [emptyDirArchive_length]; omega) hm,
    list_mem _ mem _ (by rw [emptyDirArchive_length]; omega) hm]
  decide!

theorem list_empty_directory_returns_zero_witness :
    is_dir 2 emptyDirArchive zeroMem dirPath = some 1 ∧
    list 2 emptyDirArchive zeroMem dirPath (List.replicate 4 []) 4 =
      some ⟨0, 0, List.replicate 4 []⟩ ∧
    list 2 emptyDirArchive zeroMem dirPath [] 0 = some ⟨0, 0, []⟩ :=
  list_empty_directory_returns_zero zeroMem (by decide)

/-- C8: the archive holds the regular file `f` with content `abc` and the symbolic link
`l` to `f`; `read_file` of `f` reads the three bytes and returns 0, and `read_file` of `l`
returns -1 and reads nothing: `is_file` is 0 for a link, so line 334 returns at once. -/
theorem read_file_link_returns_minus_one (mem : List Nat) (hm : mem.length = 512) :
    is_symlink 3 linkArchive mem [108] = some 1 ∧
    read_file 3 linkArchive mem [102] 0 10 = some ⟨0, 3, [97, 98, 99], some (512, 3), []⟩ ∧
    read_file 3 linkArchive mem [108] 0 10 = some ⟨-1, 10, [], none, []⟩ := by
  rw [is_symlink_mem _ _ mem _ (by rw [linkArchive_length]; omega) hm,
    read_file_mem _ mem _ _ (by rw [linkArchive_length]; omega) hm,
    read_file_mem _ mem _ _ (by rw [linkArchive_length]; omega) hm]
  decide!

theorem read_file_link_returns_minus_one_witness :
    is_symlink 3 linkArchive zeroMem [108] = some 1 ∧
    read_file 3 linkArchive zeroMem [102] 0 10 = some ⟨0, 3, [97, 98, 99], some (512, 3), []⟩ ∧
    read_file 3 linkArchive zeroMem [108] 0 10 = some ⟨-1, 10, [], none, []⟩ :=
  read_file_link_returns_minus_one zeroMem (by decide)

/-- C10: for the file `f` of 100 bytes, offset 50 and a buffer of 60 bytes, the `pread`
that fills `dest` starts at 512 + 50 and asks for 100 bytes, not for the 50 that are
left: 100 bytes are written, 60 into `dest` and 40 after its end, and the last 50 of
them lie after the file. -/
theorem read_file_requests_whole_size (mem : List Nat) (hm : mem.length = 512) :
    (read_file 2 hundredArchive mem [102] 50 60).map
        (fun out => (out.ret, out.len, out.request, out.dest.length, out.overrun.length)) =
      some (0, 50, some (562, 100), 60, 40) ∧
    (read_file 2 hundredArchive mem [102] 50 60).map (fun out => out.dest ++ out.overrun) =
      some (List.replicate 50 7 ++ List.replicate 50 0) := by
  rw [read_file_mem _ mem _ _ (by rw [hundredArchive_length]; omega) hm]
  decide!

theorem read_file_requests_whole_size_witness :
    (read_file 2 hundredArchive zeroMem [102] 50 60).map
        (fun out => (out.ret, out.len, out.request, out.dest.length, out.overrun.length)) =
      some (0, 50, some (562, 100), 60, 40) ∧
    (read_file 2 hundredArchive zeroMem [102] 50 60).map (fun out => out.dest ++ out.overrun) =
      some (List.replicate 50 7 ++ List.replicate 50 0) :=
  read_file_requests_whole_size zeroMem (by decide)
theorem read_file_loop_located (tar path : List Nat) (offset len : Int)
    (again : List Nat → Option ReadOut) (ho : Int) (h : List Nat)
    (hreg : ¬ (typeflag h = LNKTYPE ∨ typeflag h = SYMTYPE)) :
    ∀ (fuel : Nat) (header : List Nat) (head_offset : Int),
      locate tar path fuel header head_offset = some (ho, h) →
      read_file_loop tar path offset len again fuel header head_offset =
        some (readAt tar h ho offset len) := by
  intro fuel
  induction fuel with
  | zero => intro header head_offset hloc; simp [locate] at hloc
  | succ n ih =>
    intro header head_offset hloc
    simp only [locate] at hloc
    simp only [read_file_loop]
    by_cases hlt : head_offset + SizeOfHeader < tar.length
    · rw [if_pos hlt] at hloc ⊢
      by_cases hname : strcmp_eq path (name (pread tar header 512 head_offset)) = true
      · rw [if_pos hname] at hloc ⊢
        simp only [Option.some.injEq, Prod.mk.injEq] at hloc
        obtain ⟨rfl, rfl⟩ := hloc
        rw [if_neg hreg]
        unfold readAt
        split_ifs <;> rfl
      · rw [if_neg hname] at hloc ⊢
        by_cases hz : TAR_INT (size (pread tar header 512 head_offset)) = 0
        · rw [if_pos hz] at hloc ⊢
          exact ih _ _ hloc
        · rw [if_neg hz] at hloc ⊢
          exact ih _ _ hloc
    · rw [if_neg hlt] at hloc
      cases hloc

theorem read_file_located (fuel : Nat) (tar mem path : List Nat) (offset len ho f : Int)
    (h : List Nat) (hfile : is_file (fuel + 1) tar mem path = some f) (hf : f ≠ 0)
    (hloc : locate tar path (fuel + 1) mem 0 = some (ho, h))
    (hreg : ¬ (typeflag h = LNKTYPE ∨ typeflag h = SYMTYPE)) :
    read_file (fuel + 1) tar mem path offset len = some (readAt tar h ho offset len) := by
  rw [read_file, hfile]
  simp only [if_neg hf]
  exact read_file_loop_located tar path offset len _ ho h hreg _ _ _ hloc

theorem toSize_eq (x : Int) (h0 : 0 ≤ x) (h1 : x < 18446744073709551616) : toSize x = x :=
  Int.emod_eq_of_lt h0 h1

theorem toInt32_eq (x : Int) (h0 : -2147483648 ≤ x) (h1 : x < 2147483648) : toInt32 x = x := by
  unfold toInt32
  rw [Int.emod_eq_of_lt (by omega) (by omega)]
  omega

theorem strtolSigned_le (s : List Nat) : strtolSigned s ≤ 9223372036854775807 := by
  unfold strtolSigned
  split
  · rename_i bs
    have := Int.ofNat_nonneg (octalDigits bs 0)
    omega
  · exact min_le_right _ _
  · exact min_le_right _ _

theorem TAR_INT_le (s : List Nat) : TAR_INT s ≤ 9223372036854775807 := strtolSigned_le _
theorem bigHeader_length : bigHeader.length = 512 := by decide!

theorem pread_bigHeader (rest : List Nat) : pread (bigHeader ++ rest) zeroMem 512 0 = bigHeader := by
  rw [pread_start _ _ (by rw [List.length_append, bigHeader_length]; omega) (by decide)]
  exact List.take_left' bigHeader_length

theorem is_file_loop_succ (tar path : List Nat) (fuel : Nat) (header : List Nat)
    (offset : Int) :
    is_file_loop tar path (fuel + 1) header offset =
      if (pread tar header 512 offset).getD 0 0 = 0 then some 0
      else if strcmp_eq (name (pread tar header 512 offset)) path then
        if typeflag (pread tar header 512 offset) = REGTYPE ∨
          typeflag (pread tar header 512 offset) = AREGTYPE then some 1 else some 0
      else is_file_loop tar path fuel (pread tar header 512 offset)
        (nextOffset (pread tar header 512 offset) offset) := rfl

theorem locate_succ (tar path : List Nat) (fuel : Nat) (header : List Nat)
    (head_offset : Int) :
    locate tar path (fuel + 1) header head_offset =
      if head_offset + SizeOfHeader < tar.length then
        if strcmp_eq path (name (pread tar header 512 head_offset)) then
          some (head_offset, pread tar header 512 head_offset)
        else if TAR_INT (size (pread tar header 512 head_offset)) = 0 then
          locate tar path fuel (pread tar header 512 head_offset)
            (toInt32 (head_offset + SizeOfHeader))
        else
          locate tar path fuel (pread tar header 512 head_offset)
            (toInt32 (head_offset + (TAR_INT (size (pread tar header 512 head_offset))
              + 2 * SizeOfHeader
              - (TAR_INT (size (pread tar header 512 head_offset))).tmod SizeOfHeader)))
      else none := rfl

theorem is_file_big (rest : List Nat) :
    is_file 2 (bigHeader ++ rest) zeroMem [98, 105, 103] = some 1 := by
  rw [is_file, is_file_loop_succ, pread_bigHeader, if_neg (by decide!), if_pos (by decide!),
    if_pos (by decide!)]

theorem read_file_big (rest : List Nat) (hrest : 512 < rest.length) :
    read_file 2 (bigHeader ++ rest) zeroMem [98, 105, 103] 0 4096 =
      some (readAt (bigHeader ++ rest) bigHeader 0 0 4096) := by
  apply read_file_located 1 _ _ _ 0 4096 0 1 bigHeader (is_file_big rest) (by decide)
  · have hlen : (0 : Int) + SizeOfHeader < ((bigHeader ++ rest).length : Nat) := by
      rw [List.length_append, bigHeader_length]
      simp only [SizeOfHeader]
      push_cast
      omega
    rw [locate_succ, if_pos hlen, pread_bigHeader, if_pos (by decide!)]
  · decide!

/-- C9: for the regular file `big` of 3 GiB (`S = 3221225472`), offset 0 and a capacity of
4096 bytes, `read_file` sets `*len` to 4096 and returns -1073745920, where
`S - offset - min c (S - offset)` is 3221221376: the remainder does not fit the `int` that
line 362 stores it in. -/
theorem read_file_remaining_overflows :
    is_file 2 bigArchive zeroMem [98, 105, 103] = some 1 ∧
    TAR_INT (size bigHeader) = 3221225472 ∧
    (read_file 2 bigArchive zeroMem [98, 105, 103] 0 4096).map (fun out => (out.ret, out.len)) =
      some (-1073745920, 4096) := by
  have hrest : 512 < (List.replicate 3221225472 0 ++ terminator).length := by
    rw [List.length_append, List.length_replicate]; omega
  refine ⟨is_file_big _, by decide!, ?_⟩
  rw [bigArchive, read_file_big _ hrest]
  have hS : TAR_INT (size bigHeader) = 3221225472 := by decide!
  simp only [readAt, hS, Option.map_some']
  rw [if_neg (by decide), if_neg (by decide)]
  simp only
  decide
theorem sizedDirArchive_length : sizedDirArchive.length = 2048 := by decide!
theorem linkListArchive_length : linkListArchive.length = 4096 := by decide!
theorem accentArchive_length : accentArchive.length = 1536 := by decide!

/-- One turn of the loop of `read_file` that does not stop at the header read moves on
by `readNextOffset`. -/
theorem read_file_loop_next (tar path : List Nat) (offset len : Int)
    (again : List Nat → Option ReadOut) (fuel : Nat) (header : List Nat) (head_offset : Int)
    (hlt : head_offset + SizeOfHeader < tar.length)
    (hne : strcmp_eq path (name (pread tar header 512 head_offset)) = false) :
    read_file_loop tar path offset len again (fuel + 1) header head_offset =
      read_file_loop tar path offset len again fuel (pread tar header 512 head_offset)
        (readNextOffset (pread tar header 512 head_offset) head_offset) := by
  simp only [read_file_loop, readNextOffset]
  rw [if_pos hlt]
  simp only [hne, Bool.false_eq_true, if_false]
  split_ifs <;> rfl

/-- C11: the directory `d/` has a stated size of 100 and one block; the regular file `f`
of size 3 follows it. `is_file` finds `f`, and `read_file` of `f` with offset 4 returns
-512, not -2: its loop moves on from `d/` by two blocks, as for a file of 100 bytes, and
never reads the header of `f`. With offset 3 the result is -512 as well. -/
theorem read_file_misses_file_after_sized_directory (mem : List Nat) (hm : mem.length = 512) :
    is_file 3 sizedDirArchive mem [102] = some 1 ∧
    read_file 3 sizedDirArchive mem [102] 4 10 = some ⟨-512, 10, [], none, []⟩ ∧
    read_file 3 sizedDirArchive mem [102] 3 10 = some ⟨-512, 10, [], none, []⟩ := by
  rw [is_file_mem _ _ mem _ (by rw [sizedDirArchive_length]; omega) hm,
    read_file_mem _ mem _ _ (by rw [sizedDirArchive_length]; omega) hm,
    read_file_mem _ mem _ _ (by rw [sizedDirArchive_length]; omega) hm]
  decide!

theorem read_file_misses_file_after_sized_directory_witness :
    is_file 3 sizedDirArchive zeroMem [102] = some 1 ∧
    read_file 3 sizedDirArchive zeroMem [102] 4 10 = some ⟨-512, 10, [], none, []⟩ ∧
    read_file 3 sizedDirArchive zeroMem [102] 3 10 = some ⟨-512, 10, [], none, []⟩ :=
  read_file_misses_file_after_sized_directory zeroMem (by decide)

/-- C15: the files `lib` and `lic` come before the link `li`, whose linkname is `d/`, a
directory without children. With room for one entry, `list` of `li` writes `lib` and
returns 1 before it has read the header of the link; `list` of `d/` returns 0 and writes
nothing. -/
theorem list_link_differs_from_target (mem : List Nat) (hm : mem.length = 512) :
    is_symlink 4 linkListArchive mem [108, 105] = some 1 ∧
    list 6 linkListArchive mem [108, 105] [[], []] 1 = some ⟨1, 1, [[108, 105, 98], []]⟩ ∧
    list 6 linkListArchive mem [100, 47] [[], []] 1 = some ⟨0, 0, [[], []]⟩ := by
  rw [is_symlink_mem _ _ mem _ (by rw [linkListArchive_length]; omega) hm,
    list_mem _ mem _ (by rw [linkListArchive_length]; omega) hm,
    list_mem _ mem _ (by rw [linkListArchive_length]; omega) hm]
  decide!

theorem list_link_differs_from_target_witness :
    is_symlink 4 linkListArchive zeroMem [108, 105] = some 1 ∧
    list 6 linkListArchive zeroMem [108, 105] [[], []] 1 = some ⟨1, 1, [[108, 105, 98], []]⟩ ∧
    list 6 linkListArchive zeroMem [100, 47] [[], []] 1 = some ⟨0, 0, [[], []]⟩ :=
  list_link_differs_from_target zeroMem (by decide)

/-- C17: from offset 0, the six scans move on by 1024 after a regular file of size 0 and
by 1536 after one of size 512, where the rule gives 512 and 1024; the loop of `read_file`
moves on by 1024 after a directory with a stated size of 100, where the rule gives 512,
and by 1536 after a file of size 512. The other moves shown agree with the rule. -/
theorem advance_rule_off_by_one_block :
    nextOffset (mkHeader [97] 48 0 []) 0 = 1024 ∧
    nextOffset (mkHeader [97] 48 512 []) 0 = 1536 ∧
    readNextOffset (mkHeader [100, 47] 53 100 []) 0 = 1024 ∧
    readNextOffset (mkHeader [97] 48 512 []) 0 = 1536 ∧
    nextOffset (mkHeader [100, 47] 53 100 []) 0 = 512 ∧
    nextOffset (mkHeader [97] 48 100 []) 0 = 1024 ∧
    readNextOffset (mkHeader [97] 48 0 []) 0 = 512 ∧
    readNextOffset (mkHeader [97] 48 100 []) 0 = 1024 := by
  decide!

/-- C18: the header of the file named `é` (bytes 195 and 169) has the right magic and
version, and its checksum field holds 3402, the sum of its bytes as unsigned values with
32 for the bytes of the field; `check_archive` sums the bytes as `char`s, finds 2890, and
returns -3. -/
theorem check_archive_rejects_unsigned_checksum (mem : List Nat) (hm : mem.length = 512) :
    magicOk (mkHeader [195, 169] 48 1 []) = true ∧
    versionOk (mkHeader [195, 169] 48 1 []) = true ∧
    TAR_INT (chksum (mkHeader [195, 169] 48 1 [])) = 3402 ∧
    unsignedSum (mkHeader [195, 169] 48 1 []) 0 0 = 3402 ∧
    headerSum (mkHeader [195, 169] 48 1 []) 0 0 = 2890 ∧
    check_archive 2 accentArchive mem = some (-3) := by
  rw [check_archive_mem 2 _ mem (by rw [accentArchive_length]; omega) hm]
  decide!

theorem check_archive_rejects_unsigned_checksum_witness :
    magicOk (mkHeader [195, 169] 48 1 []) = true ∧
    versionOk (mkHeader [195, 169] 48 1 []) = true ∧
    TAR_INT (chksum (mkHeader [195, 169] 48 1 [])) = 3402 ∧
    unsignedSum (mkHeader [195, 169] 48 1 []) 0 0 = 3402 ∧
    headerSum (mkHeader [195, 169] 48 1 []) 0 0 = 2890 ∧
    check_archive 2 accentArchive zeroMem = some (-3) :=
  check_archive_rejects_unsigned_checksum zeroMem (by decide)

theorem is_dir_loop_spec (tar path : List Nat) (fuel : Nat) :
    ∀ (header : List Nat) (offset : Int),
      is_dir_loop tar path fuel header offset =
        match (scan tar fuel header offset).find? (fun v => strcmp_eq (name v.2) path) with
        | some v => some (if typeflag v.2 = DIRTYPE then 1 else 0)
        | none => if scanEnds tar fuel header offset then some 0 else none := by
  induction fuel with
  | zero => intro header offset; simp [is_dir_loop, scan, scanEnds]
  | succ n ih =>
    intro header offset
    rw [scan_succ, scanEnds_succ]
    simp only [is_dir_loop]
    generalize pread tar header 512 offset = H
    by_cases h0 : H.getD 0 0 = 0
    · simp only [if_pos h0]; simp
    · simp only [if_neg h0]
      cases h1 : strcmp_eq (name H) path with
      | true =>
        rw [List.find?_cons]
        simp only [h1, if_true]
        split_ifs <;> rfl
      | false =>
        rw [List.find?_cons]
        simp only [h1, Bool.false_eq_true, if_false]
        exact ih _ _

theorem is_file_loop_spec (tar path : List Nat) (fuel : Nat) :
    ∀ (header : List Nat) (offset : Int),
      is_file_loop tar path fuel header offset =
        match (scan tar fuel header offset).find? (fun v => strcmp_eq (name v.2) path) with
        | some v => some (if typeflag v.2 = REGTYPE ∨ typeflag v.2 = AREGTYPE then 1 else 0)
        | none => if scanEnds tar fuel header offset then some 0 else none := by
  induction fuel with
  | zero => intro header offset; simp [is_file_loop, scan, scanEnds]
  | succ n ih =>
    intro header offset
    rw [scan_succ, scanEnds_succ]
    simp only [is_file_loop]
    generalize pread tar header 512 offset = H
    by_cases h0 : H.getD 0 0 = 0
    · simp only [if_pos h0]; simp
    · simp only [if_neg h0]
      cases h1 : strcmp_eq (name H) path with
      | true =>
        rw [List.find?_cons]
        simp only [h1, if_true]
        split_ifs <;> rfl
      | false =>
        rw [List.find?_cons]
        simp only [h1, Bool.false_eq_true, if_false]
        exact ih _ _

theorem is_symlink_loop_spec (tar path : List Nat) (fuel : Nat) :
    ∀ (header : List Nat) (offset : Int),
      is_symlink_loop tar path fuel header offset =
        match (scan tar fuel header offset).find? (fun v => strcmp_eq (name v.2) path) with
        | some v => some (if typeflag v.2 = LNKTYPE ∨ typeflag v.2 = SYMTYPE then 1 else 0)
        | none => if scanEnds tar fuel header offset then some 0 else none := by
  induction fuel with
  | zero => intro header offset; simp [is_symlink_loop, scan, scanEnds]
  | succ n ih =>
    intro header offset
    rw [scan_succ, scanEnds_succ]
    simp only [is_symlink_loop]
    generalize pread tar header 512 offset = H
    by_cases h0 : H.getD 0 0 = 0
    · simp only [if_pos h0]; simp
    · simp only [if_neg h0]
      cases h1 : strcmp_eq (name H) path with
      | true =>
        rw [List.find?_cons]
        simp only [h1, if_true]
        split_ifs <;> rfl
      | false =>
        rw [List.find?_cons]
        simp only [h1, Bool.false_eq_true, if_false]
        exact ih _ _

theorem exists_loop_find (tar path : List Nat) (fuel : Nat) (header : List Nat) (offset : Int) :
    exists_loop tar path fuel header offset =
      match (scan tar fuel header offset).find? (fun v => strcmp_eq (name v.2) path) with
      | some _ => some 1
      | none => if scanEnds tar fuel header offset then some 0 else none := by
  rw [exists_loop_spec]
  cases hf : (scan tar fuel header offset).find? (fun v => strcmp_eq (name v.2) path) with
  | some v =>
    have hm := List.mem_of_find?_eq_some hf
    have hp := List.find?_some hf
    have hany : (scan tar fuel header offset).any (fun v => strcmp_eq (name v.2) path) = true :=
      List.any_eq_true.mpr ⟨v, hm, hp⟩
    simp only [hany, if_true]
  | none =>
    have hall := List.find?_eq_none.mp hf
    have hany : ¬ (scan tar fuel header offset).any (fun v => strcmp_eq (name v.2) path) = true := by
      intro h
      obtain ⟨v, hv, hp⟩ := List.any_eq_true.mp h
      exact hall v hv hp
    simp only [hany, Bool.false_eq_true, if_false]

/-- C20: when `is_dir`, `is_file` and `is_symlink` return for a path, at most one of the
three values is not zero, and if one is not zero then `exists` returns 1; when a header of
the scan has the name `path`, each of the three values tells the typeflag of the first
such header. -/
theorem type_queries_exclusive (fuel : Nat) (tar mem path : List Nat) (d f s : Int)
    (hd : is_dir fuel tar mem path = some d) (hf : is_file fuel tar mem path = some f)
    (hs : is_symlink fuel tar mem path = some s) :
    (¬ (d ≠ 0 ∧ f ≠ 0) ∧ ¬ (d ≠ 0 ∧ s ≠ 0) ∧ ¬ (f ≠ 0 ∧ s ≠ 0)) ∧
    (d ≠ 0 ∨ f ≠ 0 ∨ s ≠ 0 → tar_exists fuel tar mem path = some 1) ∧
    (∀ v, (scan tar fuel mem 0).find? (fun v => cstr (name v.2) == cstr path) = some v →
      (d ≠ 0 ↔ typeflag v.2 = DIRTYPE) ∧
      (f ≠ 0 ↔ typeflag v.2 = REGTYPE ∨ typeflag v.2 = AREGTYPE) ∧
      (s ≠ 0 ↔ typeflag v.2 = LNKTYPE ∨ typeflag v.2 = SYMTYPE)) := by
  rw [is_dir, is_dir_loop_spec] at hd
  rw [is_file, is_file_loop_spec] at hf
  rw [is_symlink, is_symlink_loop_spec] at hs
  rw [tar_exists, exists_loop_find]
  have hfun : (fun v : Int × List Nat => cstr (name v.2) == cstr path) =
      (fun v => strcmp_eq (name v.2) path) := rfl
  rw [hfun]
  cases hfind : (scan tar fuel mem 0).find? (fun v => strcmp_eq (name v.2) path) with
  | none =>
    rw [hfind] at hd hf hs
    have hd0 : d = 0 := by
      split_ifs at hd
      simp only [Option.some.injEq] at hd
      exact hd.symm
    have hf0 : f = 0 := by
      split_ifs at hf
      simp only [Option.some.injEq] at hf
      exact hf.symm
    have hs0 : s = 0 := by
      split_ifs at hs
      simp only [Option.some.injEq] at hs
      exact hs.symm
    subst hd0 hf0 hs0
    refine ⟨⟨by simp, by simp, by simp⟩, by simp, ?_⟩
    intro v hv
    cases hv
  | some w =>
    rw [hfind] at hd hf hs
    simp only [Option.some.injEq] at hd hf hs
    have hd1 : d ≠ 0 ↔ typeflag w.2 = DIRTYPE := by
      rw [← hd]; split_ifs with h <;> simp [h]
    have hf1 : f ≠ 0 ↔ (typeflag w.2 = REGTYPE ∨ typeflag w.2 = AREGTYPE) := by
      rw [← hf]; split_ifs with h
      · simp [h]
      · simp only [ne_eq, not_true_eq_false, false_iff]; exact h
    have hs1 : s ≠ 0 ↔ (typeflag w.2 = LNKTYPE ∨ typeflag w.2 = SYMTYPE) := by
      rw [← hs]; split_ifs with h
      · simp [h]
      · simp only [ne_eq, not_true_eq_false, false_iff]; exact h
    refine ⟨⟨?_, ?_, ?_⟩, fun _ => rfl, ?_⟩
    · rintro ⟨a, b⟩
      have ha := hd1.mp a
      rcases hf1.mp b with e | e <;> rw [ha] at e <;> revert e <;> decide
    · rintro ⟨a, b⟩
      have ha := hd1.mp a
      rcases hs1.mp b with e | e <;> rw [ha] at e <;> revert e <;> decide
    · rintro ⟨a, b⟩
      rcases hf1.mp a with e | e <;> rcases hs1.mp b with e2 | e2 <;> rw [e] at e2 <;>
        revert e2 <;> decide
    · intro v hv
      simp only [Option.some.injEq] at hv
      subst hv
      exact ⟨hd1, hf1, hs1⟩

theorem type_queries_exclusive_witness :
    (¬ ((0 : Int) ≠ 0 ∧ (0 : Int) ≠ 0) ∧ ¬ ((0 : Int) ≠ 0 ∧ (1 : Int) ≠ 0) ∧
      ¬ ((0 : Int) ≠ 0 ∧ (1 : Int) ≠ 0)) ∧
    ((0 : Int) ≠ 0 ∨ (0 : Int) ≠ 0 ∨ (1 : Int) ≠ 0 →
      tar_exists 3 linkArchive zeroMem [108] = some 1) ∧
    (∀ v, (scan linkArchive 3 zeroMem 0).find? (fun v => cstr (name v.2) == cstr [108]) = some v →
      ((0 : Int) ≠ 0 ↔ typeflag v.2 = DIRTYPE) ∧
      ((0 : Int) ≠ 0 ↔ typeflag v.2 = REGTYPE ∨ typeflag v.2 = AREGTYPE) ∧
      ((1 : Int) ≠ 0 ↔ typeflag v.2 = LNKTYPE ∨ typeflag v.2 = SYMTYPE)) :=
  type_queries_exclusive 3 linkArchive zeroMem [108] 0 0 1 (by decide!) (by decide!) (by decide!)

theorem list_loop_succ (tar path : List Nat) (cap : Nat) (path_len : Int)
    (again : List Nat → List (List Nat) → Option ListOut) (fuel : Nat) (header : List Nat)
    (entries : List (List Nat)) (entries_number : Nat) (offset : Int) :
    list_loop tar path cap path_len again (fuel + 1) header entries entries_number offset =
      if (pread tar header 512 offset).getD 0 0 = 0 then
        some ⟨toInt32 entries_number, entries_number, entries⟩
      else if strcmp_eq (name (pread tar header 512 offset)) path then
        if typeflag (pread tar header 512 offset) = SYMTYPE ∨
            typeflag (pread tar header 512 offset) = LNKTYPE then
          again (cstr (linkname (pread tar header 512 offset))) entries
        else list_loop tar path cap path_len again fuel (pread tar header 512 offset) entries
          entries_number (nextOffset (pread tar header 512 offset) offset)
      else if strncmp_eq (name (pread tar header 512 offset)) path (toSize path_len).toNat then
        if cap ≤ entries_number then some ⟨toInt32 entries_number, entries_number, entries⟩
        else list_loop tar path cap path_len again fuel (pread tar header 512 offset)
          (entries.set entries_number (cstr (name (pread tar header 512 offset))))
          (entries_number + 1) (nextOffset (pread tar header 512 offset) offset)
      else list_loop tar path cap path_len again fuel (pread tar header 512 offset) entries
        entries_number (nextOffset (pread tar header 512 offset) offset) := rfl

theorem list_succ (fuel : Nat) (tar mem path : List Nat) (entries : List (List Nat))
    (cap : Nat) :
    list (fuel + 1) tar mem path entries cap =
      match is_dir (fuel + 1) tar mem path with
      | none => none
      | some d =>
        if d = 0 then
          match is_symlink (fuel + 1) tar mem path with
          | none => none
          | some s =>
            if s = 0 then some ⟨0, 0, entries⟩
            else list_loop tar path cap (toInt32 ((cstr path).length - 1))
              (fun target ents => list fuel tar mem target ents cap) (fuel + 1) mem entries 0 0
        else list_loop tar path cap (toInt32 ((cstr path).length - 1))
          (fun target ents => list fuel tar mem target ents cap) (fuel + 1) mem entries 0 0 :=
  rfl

theorem writeNames_cons (entries : List (List Nat)) (n : Nat) (x : List Nat)
    (xs : List (List Nat)) :
    writeNames entries n (x :: xs) = writeNames (entries.set n x) (n + 1) xs := rfl

theorem list_loop_full (tar path : List Nat) (cap : Nat)
    (again : List Nat → List (List Nat) → Option ListOut) :
    ∀ (fuel : Nat) (header : List Nat) (entries : List (List Nat)) (n : Nat) (offset : Int),
      n ≤ cap →
      (∀ v ∈ scan tar fuel header offset, strcmp_eq (name v.2) path = true →
        ¬ (typeflag v.2 = SYMTYPE ∨ typeflag v.2 = LNKTYPE)) →
      cap - n ≤ ((scan tar fuel header offset).filter (listed path)).length →
      (((scan tar fuel header offset).filter (listed path)).length = cap - n →
        scanEnds tar fuel header offset = true) →
      list_loop tar path cap (toInt32 ((cstr path).length - 1)) again fuel header entries n
          offset =
        some ⟨toInt32 cap, cap, writeNames entries n
          ((((scan tar fuel header offset).filter (listed path)).take (cap - n)).map
            (fun v => cstr (name v.2)))⟩ := by
  intro fuel
  induction fuel with
  | zero =>
    intro header entries n offset hn _ hmore hexact
    simp only [scan, List.filter_nil, List.length_nil] at hmore hexact
    have := hexact (by omega)
    simp [scanEnds] at this
  | succ k ih =>
    intro header entries n offset hn hnolink hmore hexact
    rw [scan_succ] at hnolink hmore hexact ⊢
    rw [scanEnds_succ] at hexact
    rw [list_loop_succ]
    generalize pread tar header 512 offset = H at hnolink hmore hexact ⊢
    by_cases h0 : H.getD 0 0 = 0
    · simp only [if_pos h0] at hmore ⊢
      simp only [List.filter_nil, List.length_nil] at hmore
      have hn2 : n = cap := by omega
      subst hn2
      simp [writeNames]
    · simp only [if_neg h0] at hnolink hmore hexact ⊢
      have hrest : ∀ v ∈ scan tar k H (nextOffset H offset), strcmp_eq (name v.2) path = true →
          ¬ (typeflag v.2 = SYMTYPE ∨ typeflag v.2 = LNKTYPE) :=
        fun v hv => hnolink v (List.mem_cons_of_mem _ hv)
      by_cases h1 : strcmp_eq (name H) path = true
      · have hl : listed path (offset, H) = false := by simp [listed, h1]
        rw [List.filter_cons_of_neg (by simp [hl])] at hmore hexact ⊢
        rw [if_pos h1, if_neg (hnolink (offset, H) (List.mem_cons_self _ _) h1)]
        exact ih _ _ _ _ hn hrest hmore hexact
      · rw [if_neg h1]
        by_cases h2 : strncmp_eq (name H) path
            (toSize (toInt32 ((cstr path).length - 1))).toNat = true
        · have hl : listed path (offset, H) = true := by
            simp only [listed, Bool.and_eq_true, Bool.not_eq_true']
            exact ⟨by simpa using h1, h2⟩
          rw [List.filter_cons_of_pos hl] at hmore hexact ⊢
          rw [if_pos h2]
          by_cases hcap : cap ≤ n
          · have hn2 : n = cap := by omega
            subst hn2
            rw [if_pos hcap]
            simp [writeNames]
          · rw [if_neg hcap]
            simp only [List.length_cons] at hmore hexact
            have hstep : cap - n = (cap - (n + 1)) + 1 := by omega
            rw [hstep, List.take_succ_cons, List.map_cons, writeNames_cons]
            exact ih _ _ _ _ (by omega) hrest (by omega) (fun he => hexact (by omega))
        · have hl : listed path (offset, H) = false := by
            simp only [listed, Bool.and_eq_false_imp]
            intro _
            simpa using h2
          rw [List.filter_cons_of_neg (by simp [hl])] at hmore hexact ⊢
          rw [if_neg h2]
          exact ih _ _ _ _ hn hrest hmore hexact

/-- C14: with room for two entries, `list` of `dir/` leaves the same return value, the
same `*no_entries` and the same entries for the directory with the three children `a`,
`b` and `c/` as for the one with the two children `a` and `b`. -/
theorem list_truncation_not_signalled :
    list 6 treeArchive zeroMem dirPath [[], []] 2 =
      some ⟨2, 2, [dirPath ++ [97], dirPath ++ [98]]⟩ ∧
    list 6 twoArchive zeroMem dirPath [[], []] 2 =
      some ⟨2, 2, [dirPath ++ [97], dirPath ++ [98]]⟩ := by
  decide!

/-- C14, amended: for a directory `path` and a capacity `c` below 2^31, when the scan
shows more than `c` headers that `list` takes for entries of `path`, `list` writes the
names of the first `c` of them, sets `*no_entries` to `c` and returns `c`. -/
theorem list_full_capacity_pair (fuel : Nat) (tar mem path : List Nat)
    (entries : List (List Nat)) (cap : Nat) (d : Int)
    (hcap : (cap : Int) < 2147483648)
    (hdir : is_dir (fuel + 1) tar mem path = some d) (hd : d ≠ 0)
    (hnolink : ∀ v ∈ scan tar (fuel + 1) mem 0, strcmp_eq (name v.2) path = true →
      ¬ (typeflag v.2 = SYMTYPE ∨ typeflag v.2 = LNKTYPE))
    (hmore : cap < ((scan tar (fuel + 1) mem 0).filter (listed path)).length) :
    list (fuel + 1) tar mem path entries cap =
      some ⟨cap, cap, writeNames entries 0
        ((((scan tar (fuel + 1) mem 0).filter (listed path)).take cap).map
          (fun v => cstr (name v.2)))⟩ := by
  rw [list_succ, hdir]
  simp only [if_neg hd]
  rw [list_loop_full tar path cap _ (fuel + 1) mem entries 0 0 (Nat.zero_le _) hnolink
    (by simp only [Nat.sub_zero]; omega) (by simp only [Nat.sub_zero]; omega)]
  rw [toInt32_eq _ (by omega) hcap]
  rfl

theorem list_full_capacity_pair_witness :
    list 6 treeArchive zeroMem dirPath [[], []] 2 =
      some ⟨(2 : Nat), 2, writeNames [[], []] 0
        ((((scan treeArchive 6 zeroMem 0).filter (listed dirPath)).take 2).map
          (fun v => cstr (name v.2)))⟩ :=
  list_full_capacity_pair 5 treeArchive zeroMem dirPath [[], []] 2 1 (by decide) (by decide!)
    (by decide) (by decide!) (by decide!)

theorem signedSumArchive_length : signedSumArchive.length = 1536 := by decide!
theorem fullNameArchive_length : fullNameArchive.length = 1536 := by decide!

/-- C2: the header of the file named `é` has the right magic and version and a wrong
checksum: its field holds 2890 where the sum of its bytes as unsigned values is 3402, so
the first check that it fails is the checksum. `check_archive` does not stop at it with
-3: it returns the count 1. -/
theorem check_archive_counts_wrong_checksum (mem : List Nat) (hm : mem.length = 512) :
    magicOk signedSumHeader = true ∧ versionOk signedSumHeader = true ∧
    TAR_INT (chksum signedSumHeader) = 2890 ∧ unsignedSum signedSumHeader 0 0 = 3402 ∧
    checksumOk signedSumHeader = false ∧ firstError signedSumHeader = -3 ∧
    (scan signedSumArchive 2 mem 0).map Prod.snd = [signedSumHeader] ∧
    check_archive 2 signedSumArchive mem = some 1 := by
  have hscan : scan signedSumArchive 2 mem 0 = scan signedSumArchive 2 zeroMem 0 := by
    rw [scan_succ, scan_succ signedSumArchive 1 zeroMem,
      pread_start_mem _ mem (by rw [signedSumArchive_length]; omega) hm]
  rw [check_archive_mem 2 _ mem (by rw [signedSumArchive_length]; omega) hm, hscan]
  decide!

theorem check_archive_counts_wrong_checksum_witness :
    magicOk signedSumHeader = true ∧ versionOk signedSumHeader = true ∧
    TAR_INT (chksum signedSumHeader) = 2890 ∧ unsignedSum signedSumHeader 0 0 = 3402 ∧
    checksumOk signedSumHeader = false ∧ firstError signedSumHeader = -3 ∧
    (scan signedSumArchive 2 zeroMem 0).map Prod.snd = [signedSumHeader] ∧
    check_archive 2 signedSumArchive zeroMem = some 1 :=
  check_archive_counts_wrong_checksum zeroMem (by decide)

/-- C4: the name of the only entry of the archive fills the 100 bytes of the name field,
and `check_archive` accepts the archive. `exists` returns 0 for this name, and 1 for the
name followed by the seven digits of the mode field: `strcmp` reads on after the name
field up to the null that ends the mode. -/
theorem exists_misses_full_name (mem : List Nat) (hm : mem.length = 512) :
    entryName (mkHeader longName 48 1 []) = longName ∧
    check_archive 2 fullNameArchive mem = some 1 ∧
    tar_exists 2 fullNameArchive mem longName = some 0 ∧
    tar_exists 2 fullNameArchive mem (longName ++ [48, 48, 48, 48, 54, 52, 52]) = some 1 := by
  rw [check_archive_mem 2 _ mem (by rw [fullNameArchive_length]; omega) hm,
    tar_exists_mem 2 _ mem _ (by rw [fullNameArchive_length]; omega) hm,
    tar_exists_mem 2 _ mem _ (by rw [fullNameArchive_length]; omega) hm]
  decide!

theorem exists_misses_full_name_witness :
    entryName (mkHeader longName 48 1 []) = longName ∧
    check_archive 2 fullNameArchive zeroMem = some 1 ∧
    tar_exists 2 fullNameArchive zeroMem longName = some 0 ∧
    tar_exists 2 fullNameArchive zeroMem (longName ++ [48, 48, 48, 48, 54, 52, 52]) = some 1 :=
  exists_misses_full_name zeroMem (by decide)

/-- C12: the file `f` of 100 bytes is read in chunks of 30 bytes. The calls at the offsets
0, 30 and 60 fill the 30 bytes of `dest` and return 70, 40 and 10. The call at offset 90
returns 0 with `*len` at 10, and its `pread` asks for 100 bytes at 602: 30 bytes go into
`dest` and 70 bytes are written after its end. -/
theorem read_file_last_chunk_overruns (mem : List Nat) (hm : mem.length = 512) :
    (read_file 2 hundredArchive mem [102] 0 30).map
        (fun out => (out.ret, out.len, out.request, out.dest.length, out.overrun.length)) =
      some (70, 30, some (512, 30), 30, 0) ∧
    (read_file 2 hundredArchive mem [102] 30 30).map
        (fun out => (out.ret, out.len, out.request, out.dest.length, out.overrun.length)) =
      some (40, 30, some (542, 30), 30, 0) ∧
    (read_file 2 hundredArchive mem [102] 60 30).map
        (fun out => (out.ret, out.len, out.request, out.dest.length, out.overrun.length)) =
      some (10, 30, some (572, 30), 30, 0) ∧
    (read_file 2 hundredArchive mem [102] 90 30).map
        (fun out => (out.ret, out.len, out.request, out.dest.length, out.overrun.length)) =
      some (0, 10, some (602, 100), 30, 70) := by
  rw [read_file_mem _ mem _ _ (by rw [hundredArchive_length]; omega) hm,
    read_file_mem _ mem _ _ (by rw [hundredArchive_length]; omega) hm,
    read_file_mem _ mem _ _ (by rw [hundredArchive_length]; omega) hm,
    read_file_mem _ mem _ _ (by rw [hundredArchive_length]; omega) hm]
  exact ⟨by decide!, by decide!, by decide!, by decide!⟩

theorem read_file_last_chunk_overruns_witness :
    (read_file 2 hundredArchive zeroMem [102] 0 30).map
        (fun out => (out.ret, out.len, out.request, out.dest.length, out.overrun.length)) =
      some (70, 30, some (512, 30), 30, 0) ∧
    (read_file 2 hundredArchive zeroMem [102] 30 30).map
        (fun out => (out.ret, out.len, out.request, out.dest.length, out.overrun.length)) =
      some (40, 30, some (542, 30), 30, 0) ∧
    (read_file 2 hundredArchive zeroMem [102] 60 30).map
        (fun out => (out.ret, out.len, out.request, out.dest.length, out.overrun.length)) =
      some (10, 30, some (572, 30), 30, 0) ∧
    (read_file 2 hundredArchive zeroMem [102] 90 30).map
        (fun out => (out.ret, out.len, out.request, out.dest.length, out.overrun.length)) =
      some (0, 10, some (602, 100), 30, 70) :=
  read_file_last_chunk_overruns zeroMem (by decide)

end LibTar
